import Mathlib

set_option maxHeartbeats 1000000

namespace ScheduleService

/-!
Shallow embedding of the schedule-service repository.

The channels API handlers are embedded from src/api/channels.ts and the
startup sequence from server.ts.  The auto-scheduler core
(src/auto_scheduler/mrss) is not part of the shipped sources, so its
placement and reconciliation functions are modelled from the spec, as
marked on each definition.  Store collaborators (DynamoDB layer) are
modelled as abstract functions returning Except values; a thrown
exception of a store call is an Except.error result.
-/

/-- JavaScript truthiness of an optional query-string parameter as tested by
an `if (x)` statement: an absent parameter (undefined) and the empty string
are falsy, every other string is truthy. -/
def jsTruthy : Option String → Bool
  | none => false
  | some s => !(s == "")

/-- The range object the schedule handler builds and passes to
getScheduleEventsByChannelId (ScheduleRangeOptions in
src/models/scheduleModel).  All three fields begin absent, mirroring the
empty object literal in the handler.  The TS field named end is rendered
endTime because end is a Lean keyword. -/
structure ScheduleRangeOptions where
  date : Option String := none
  start : Option Int := none
  endTime : Option Int := none
  deriving DecidableEq, Repr

/-- Error raised by a store collaborator call; the fastify handlers catch it
in their try/catch blocks. -/
inductive StoreErr where
  | failure
  deriving DecidableEq, Repr

/-- An HTTP response as the handlers produce it: the status code set on the
reply, and the payload passed to send (none when the handler only sets the
status, as the catch branches of the GET handlers do). -/
structure ApiResponse (α : Type) where
  status : Nat
  body : Option α
  deriving DecidableEq, Repr

/-- A channel record as the channels API uses it: the POST handler reads
only the id and tenant fields of the request body, and the created Channel
wraps the body unchanged (its item accessor returns the stored attrs). -/
structure ChannelBody where
  id : String
  tenant : String
  deriving DecidableEq, Repr

/-- A ScheduleEvent as written by the scheduler: channelId, start and end of
the slot (epoch time; the TS field named end is rendered endTime), the
per-channel monotonic sequence number and the originating item GUID. -/
structure SEvent where
  channelId : String
  start : Nat
  endTime : Nat
  seq : Nat
  itemGuid : String
  deriving DecidableEq, Repr

/-- A write operation against a store, recorded by the handler embeddings so
that a theorem can state that a handler performs no writes. -/
inductive WriteOp where
  | addChannel (c : ChannelBody)
  | addEvents (evs : List SEvent)
  | markExpired (evs : List SEvent)
  deriving DecidableEq, Repr

/-- Lines 109-119 of the schedule handler: build the ScheduleRangeOptions
from the date, start and end query parameters.  If date is truthy only the
date field is set; otherwise each truthy start/end parameter is converted to
epoch milliseconds with dayjs(x).valueOf(), abstracted here as the parse
argument. -/
def buildRangeOpts (parse : String → Int) (dateQ startQ endQ : Option String) :
    ScheduleRangeOptions :=
  if jsTruthy dateQ then
    { date := dateQ, start := none, endTime := none }
  else
    { date := none,
      start := if jsTruthy startQ then startQ.map parse else none,
      endTime := if jsTruthy endQ then endQ.map parse else none }

/-- The GET /channels/:channelId/schedule handler: build the range options,
call getScheduleEventsByChannelId on the schedule event store, send the
result with status 200, or catch a store error and set status 500.  The
second component records the store writes the handler performs (it performs
none). -/
def scheduleHandler {α : Type} (parse : String → Int)
    (store : String → ScheduleRangeOptions → Except StoreErr (List α))
    (channelId : String) (dateQ startQ endQ : Option String) :
    ApiResponse (List α) × List WriteOp :=
  match store channelId (buildRangeOpts parse dateQ startQ endQ) with
  | Except.ok evs => (⟨200, some evs⟩, [])
  | Except.error _ => (⟨500, none⟩, [])

/-- The channel store as seen by the GET /channels handler: listAll returns
every channel of every tenant, list returns the channels of one tenant.
Either call may fail. -/
structure ChannelStoreView where
  listAll : Except StoreErr (List ChannelBody)
  list : String → Except StoreErr (List ChannelBody)

/-- The test tenant.match(/^localhost/) of the GET /channels handler: the
Host header matches when the string localhost is a prefix of it. -/
def hostIsLocalhost (host : String) : Bool :=
  List.isPrefixOf "localhost".data host.data

/-- The GET /channels handler: if the Host header matches the regex
/^localhost/ the handler sends the result of listAll, otherwise the result
of list(tenant); a store error is caught and the status set to 500.  The
second component records the store writes the handler performs (none). -/
def getChannelsHandler (host : String) (db : ChannelStoreView) :
    ApiResponse (List ChannelBody) × List WriteOp :=
  if hostIsLocalhost host then
    match db.listAll with
    | Except.ok cs => (⟨200, some cs⟩, [])
    | Except.error _ => (⟨500, none⟩, [])
  else
    match db.list host with
    | Except.ok cs => (⟨200, some cs⟩, [])
    | Except.error _ => (⟨500, none⟩, [])

/-- The POST /channels handler over a channel store modelled as the list of
stored channels (getChannelById is lookup by id, add appends).  The handler
rejects with 400 when the body tenant differs from the Host header or a
channel with the same id exists, otherwise it adds the channel and sends its
item back with 200.  Returns the response and the updated store. -/
def postChannelsHandler (host : String) (body : ChannelBody)
    (store : List ChannelBody) :
    ApiResponse (ChannelBody ⊕ String) × List ChannelBody :=
  if body.tenant ≠ host then
    (⟨400, some (Sum.inr ("Expected tenant to be " ++ host))⟩, store)
  else
    match store.find? (fun c => c.id == body.id) with
    | some _ =>
        (⟨400, some (Sum.inr ("Channel with ID " ++ body.id ++ " already exists"))⟩,
         store)
    | none => (⟨200, some (Sum.inl body)⟩, store ++ [body])

/-- One step of the start function in server.ts, in the order the awaited
statements execute. -/
inductive StartupStep where
  | registerRootRoute
  | registerDb
  | registerChannelsApi
  | registerAutoSchedulerApi
  | schedulerBootstrap
  | schedulerRun
  | serverListen
  deriving DecidableEq, Repr

/-- The start function of server.ts as the ordered list of its awaited
steps: each step completes before the next begins. -/
def startSteps : List StartupStep :=
  [StartupStep.registerRootRoute, StartupStep.registerDb,
   StartupStep.registerChannelsApi, StartupStep.registerAutoSchedulerApi,
   StartupStep.schedulerBootstrap, StartupStep.schedulerRun,
   StartupStep.serverListen]

/-- A step is a scheduler entry point when it calls into the
MRSSAutoScheduler instance. -/
def isSchedulerEntryPoint : StartupStep → Bool
  | StartupStep.schedulerBootstrap => true
  | StartupStep.schedulerRun => true
  | _ => false

/-- Store used by the C1 counterexample: it answers with a one-element list
exactly when it is called with the range consisting of the empty date
string, so the response reveals which range the handler passed. -/
def probeStore : String → ScheduleRangeOptions → Except StoreErr (List Nat) :=
  fun _ r => Except.ok (if r.date = some "" then [1] else [2])

/-- C1, counterexample: the claim fails when the date parameter is present
but empty.  With query date set to the empty string and start set to a
non-empty string, the handler does not pass the range consisting of that
date string: probeStore distinguishes the two ranges and the handler
returns the answer for the start/end range, not the date range. -/
theorem C1_counterexample :
    (some "" : Option String).isSome = true ∧
    scheduleHandler (fun _ => 0) probeStore "ch" (some "") (some "x") none ≠
      (match probeStore "ch" { date := some "", start := none, endTime := none } with
       | Except.ok evs => (⟨200, some evs⟩, ([] : List WriteOp))
       | Except.error _ => (⟨500, none⟩, [])) := by
  decide

/-- C1, amended: the range passed to getScheduleEventsByChannelId is
selected as follows: if the date query parameter is present and non-empty,
the range consists of that date string only and any start/end parameters
are ignored; otherwise each of start and end that is present and non-empty
is converted to an epoch-millisecond timestamp and placed in the range;
parameters that are absent or empty contribute nothing, so if none
contribute the range is empty.  Stated observationally: the handler
responds exactly as the store answers on that range. -/
theorem C1_range_selection {α : Type} (parse : String → Int)
    (store : String → ScheduleRangeOptions → Except StoreErr (List α))
    (channelId : String) (dateQ startQ endQ : Option String) :
    scheduleHandler parse store channelId dateQ startQ endQ =
      (match store channelId
          (match dateQ with
           | some d =>
               if d = "" then
                 { date := none,
                   start := match startQ with
                            | some s => if s = "" then none else some (parse s)
                            | none => none,
                   endTime := match endQ with
                              | some s => if s = "" then none else some (parse s)
                              | none => none }
               else { date := some d, start := none, endTime := none }
           | none =>
               { date := none,
                 start := match startQ with
                          | some s => if s = "" then none else some (parse s)
                          | none => none,
                 endTime := match endQ with
                            | some s => if s = "" then none else some (parse s)
                            | none => none }) with
       | Except.ok evs => (⟨200, some evs⟩, [])
       | Except.error _ => (⟨500, none⟩, [])) := by
  have hr : buildRangeOpts parse dateQ startQ endQ =
      (match dateQ with
       | some d =>
           if d = "" then
             { date := none,
               start := match startQ with
                        | some s => if s = "" then none else some (parse s)
                        | none => none,
               endTime := match endQ with
                          | some s => if s = "" then none else some (parse s)
                          | none => none }
           else ({ date := some d, start := none, endTime := none } : ScheduleRangeOptions)
       | none =>
           { date := none,
             start := match startQ with
                      | some s => if s = "" then none else some (parse s)
                      | none => none,
             endTime := match endQ with
                        | some s => if s = "" then none else some (parse s)
                        | none => none }) := by
    cases dateQ with
    | none =>
        cases startQ <;> cases endQ <;>
          simp [buildRangeOpts, jsTruthy]
    | some d =>
        by_cases hd : d = "" <;>
          cases startQ <;> cases endQ <;>
            simp [buildRangeOpts, jsTruthy, hd]
  unfold scheduleHandler
  rw [hr]

/-- C2: when the schedule event store succeeds, the schedule handler
responds 200 with exactly the list of ScheduleEvents the store returned,
unmodified, and performs no store write. -/
theorem C2_schedule_passthrough {α : Type} (parse : String → Int)
    (store : String → ScheduleRangeOptions → Except StoreErr (List α))
    (channelId : String) (dateQ startQ endQ : Option String) (evs : List α)
    (hok : store channelId (buildRangeOpts parse dateQ startQ endQ) = Except.ok evs) :
    (scheduleHandler parse store channelId dateQ startQ endQ).1 = ⟨200, some evs⟩ ∧
    (scheduleHandler parse store channelId dateQ startQ endQ).2 = [] := by
  unfold scheduleHandler
  rw [hok]
  exact ⟨rfl, rfl⟩

/-- Witness for C2 at a concrete store. -/
theorem C2_schedule_passthrough_witness :
    (scheduleHandler (fun _ => 0) (fun _ _ => Except.ok [7, 3]) "ch"
        none none none).1 = ⟨200, some [7, 3]⟩ ∧
    (scheduleHandler (fun _ => 0) (fun _ _ => Except.ok [7, 3]) "ch"
        none none none).2 = [] :=
  C2_schedule_passthrough (fun _ => 0) (fun _ _ => Except.ok [7, 3]) "ch"
    none none none [7, 3] rfl

/-- C3: the POST /channels handler adds the channel exactly when the body
tenant equals the Host header and no channel with the body id exists; in
either failing case it responds 400 and leaves the channel store unchanged;
on success it responds 200 with the created channel item. -/
theorem C3_post_channel (host : String) (body : ChannelBody)
    (store : List ChannelBody) :
    if body.tenant = host ∧ (store.find? (fun c => c.id == body.id)).isNone then
      postChannelsHandler host body store =
        (⟨200, some (Sum.inl body)⟩, store ++ [body])
    else
      (postChannelsHandler host body store).1.status = 400 ∧
      (postChannelsHandler host body store).2 = store := by
  unfold postChannelsHandler
  by_cases ht : body.tenant = host
  · cases hf : store.find? (fun c => c.id == body.id) with
    | none => simp [ht, hf]
    | some c => simp [ht, hf]
  · simp [ht]

/-- C4: in the start function of server.ts, the scheduler bootstrap runs
exactly once, it completes before the run loop starts, both complete before
the server begins listening, and bootstrap and run are the only scheduler
entry points the server invokes. -/
theorem C4_startup_order :
    startSteps.count StartupStep.schedulerBootstrap = 1 ∧
    startSteps.indexOf StartupStep.schedulerBootstrap <
      startSteps.indexOf StartupStep.schedulerRun ∧
    startSteps.indexOf StartupStep.schedulerRun <
      startSteps.indexOf StartupStep.serverListen ∧
    startSteps.filter isSchedulerEntryPoint =
      [StartupStep.schedulerBootstrap, StartupStep.schedulerRun] ∧
    startSteps.count StartupStep.serverListen = 1 := by
  decide

/-- C8: the GET /channels handler is tenant isolating except for localhost:
a Host header starting with localhost receives the full listAll result, and
for any other Host header the response is a function of the per-tenant
listing alone, so two stores agreeing on that tenant listing produce
identical responses. -/
theorem C8_tenant_isolation (host1 host2 : String)
    (dbA dbB dbC : ChannelStoreView) :
    (∀ cs, hostIsLocalhost host1 = true →
      dbA.listAll = Except.ok cs →
      getChannelsHandler host1 dbA = (⟨200, some cs⟩, [])) ∧
    (hostIsLocalhost host2 = false →
      dbB.list host2 = dbC.list host2 →
      getChannelsHandler host2 dbB = getChannelsHandler host2 dbC) := by
  constructor
  · intro cs hloc hall
    unfold getChannelsHandler
    rw [hloc, hall]
    rfl
  · intro hloc hagree
    unfold getChannelsHandler
    rw [hloc, hagree]
    simp

/-- Witness for C8: a localhost request sees all channels of every tenant,
and a tenant request only depends on that tenant listing. -/
theorem C8_tenant_isolation_witness :
    getChannelsHandler "localhost:8080"
        ⟨Except.ok [⟨"c1", "t1"⟩, ⟨"c2", "t2"⟩], fun _ => Except.ok []⟩ =
      (⟨200, some [⟨"c1", "t1"⟩, ⟨"c2", "t2"⟩]⟩, []) ∧
    getChannelsHandler "tenant.example"
        ⟨Except.ok [⟨"c1", "t1"⟩], fun _ => Except.ok [⟨"c1", "t1"⟩]⟩ =
      getChannelsHandler "tenant.example"
        ⟨Except.ok [⟨"c2", "t2"⟩], fun _ => Except.ok [⟨"c1", "t1"⟩]⟩ :=
  ⟨(C8_tenant_isolation "localhost:8080" "x"
      ⟨Except.ok [⟨"c1", "t1"⟩, ⟨"c2", "t2"⟩], fun _ => Except.ok []⟩
      ⟨Except.ok [], fun _ => Except.ok []⟩
      ⟨Except.ok [], fun _ => Except.ok []⟩).1
        [⟨"c1", "t1"⟩, ⟨"c2", "t2"⟩] (by decide) rfl,
   (C8_tenant_isolation "x" "tenant.example"
      ⟨Except.ok [], fun _ => Except.ok []⟩
      ⟨Except.ok [⟨"c1", "t1"⟩], fun _ => Except.ok [⟨"c1", "t1"⟩]⟩
      ⟨Except.ok [⟨"c2", "t2"⟩], fun _ => Except.ok [⟨"c1", "t1"⟩]⟩).2
        (by decide) rfl⟩

/-- C9: when the store operation underlying GET /channels or
GET /channels/:channelId/schedule fails, the handler catches the error,
responds with status 500 and no body, and performs no store write. -/
theorem C9_error_paths (host : String) (db : ChannelStoreView)
    {α : Type} (parse : String → Int)
    (store : String → ScheduleRangeOptions → Except StoreErr (List α))
    (channelId : String) (dateQ startQ endQ : Option String)
    (e1 e2 e3 : StoreErr) :
    (hostIsLocalhost host = true → db.listAll = Except.error e1 →
      getChannelsHandler host db = (⟨500, none⟩, [])) ∧
    (hostIsLocalhost host = false → db.list host = Except.error e2 →
      getChannelsHandler host db = (⟨500, none⟩, [])) ∧
    (store channelId (buildRangeOpts parse dateQ startQ endQ) = Except.error e3 →
      scheduleHandler parse store channelId dateQ startQ endQ = (⟨500, none⟩, [])) := by
  refine ⟨?_, ?_, ?_⟩
  · intro hloc herr
    unfold getChannelsHandler
    rw [hloc, herr]
    rfl
  · intro hloc herr
    unfold getChannelsHandler
    rw [hloc, herr]
    simp
  · intro herr
    unfold scheduleHandler
    rw [herr]

/-- Witness for C9 with concrete failing stores. -/
theorem C9_error_paths_witness :
    getChannelsHandler "localhost:8080"
        ⟨Except.error StoreErr.failure, fun _ => Except.ok []⟩ =
      (⟨500, none⟩, []) ∧
    getChannelsHandler "tenant.example"
        ⟨Except.ok [], fun _ => Except.error StoreErr.failure⟩ =
      (⟨500, none⟩, []) ∧
    scheduleHandler (fun _ => 0)
        (fun _ _ => (Except.error StoreErr.failure : Except StoreErr (List Nat)))
        "ch" none none none = (⟨500, none⟩, []) :=
  ⟨(C9_error_paths "localhost:8080"
      ⟨Except.error StoreErr.failure, fun _ => Except.ok []⟩ (fun _ => 0)
      (fun _ _ => (Except.error StoreErr.failure : Except StoreErr (List Nat)))
      "ch" none none none StoreErr.failure StoreErr.failure StoreErr.failure).1
      (by decide) rfl,
   (C9_error_paths "tenant.example"
      ⟨Except.ok [], fun _ => Except.error StoreErr.failure⟩ (fun _ => 0)
      (fun _ _ => (Except.error StoreErr.failure : Except StoreErr (List Nat)))
      "ch" none none none StoreErr.failure StoreErr.failure StoreErr.failure).2.1
      (by decide) rfl,
   (C9_error_paths "tenant.example"
      ⟨Except.ok [], fun _ => Except.error StoreErr.failure⟩ (fun _ => 0)
      (fun _ _ => (Except.error StoreErr.failure : Except StoreErr (List Nat)))
      "ch" none none none StoreErr.failure StoreErr.failure StoreErr.failure).2.2
      rfl⟩

/-- C10: the schedule handler never checks channel existence: for every
channelId, also an unknown one, the status is 200 or 500 (there is no 404
path), and whenever the store answers for that id the handler responds 200
with exactly that answer. -/
theorem C10_no_existence_check {α : Type} (parse : String → Int)
    (store : String → ScheduleRangeOptions → Except StoreErr (List α))
    (channelId : String) (dateQ startQ endQ : Option String) :
    ((scheduleHandler parse store channelId dateQ startQ endQ).1.status = 200 ∨
     (scheduleHandler parse store channelId dateQ startQ endQ).1.status = 500) ∧
    (∀ evs, store channelId (buildRangeOpts parse dateQ startQ endQ) = Except.ok evs →
      scheduleHandler parse store channelId dateQ startQ endQ =
        (⟨200, some evs⟩, [])) := by
  constructor
  · unfold scheduleHandler
    cases store channelId (buildRangeOpts parse dateQ startQ endQ) with
    | ok evs => exact Or.inl rfl
    | error e => exact Or.inr rfl
  · intro evs hok
    unfold scheduleHandler
    rw [hok]

/-- Witness for C10: a channelId for which nothing is stored is answered
with 200 and the empty list the store reports, not 404. -/
theorem C10_no_existence_check_witness :
    ((scheduleHandler (fun _ => 0)
        (fun _ _ => (Except.ok [] : Except StoreErr (List Nat)))
        "no-such-channel" none none none).1.status = 200 ∨
     (scheduleHandler (fun _ => 0)
        (fun _ _ => (Except.ok [] : Except StoreErr (List Nat)))
        "no-such-channel" none none none).1.status = 500) ∧
    scheduleHandler (fun _ => 0)
        (fun _ _ => (Except.ok [] : Except StoreErr (List Nat)))
        "no-such-channel" none none none = (⟨200, some []⟩, []) :=
  ⟨(C10_no_existence_check (fun _ => 0)
      (fun _ _ => (Except.ok [] : Except StoreErr (List Nat)))
      "no-such-channel" none none none).1,
   (C10_no_existence_check (fun _ => 0)
      (fun _ _ => (Except.ok [] : Except StoreErr (List Nat)))
      "no-such-channel" none none none).2 [] rfl⟩

/-- Modelled from the spec: a PlayableItem as produced by the Feed Item
Normalizer (section 4.1) — the stable GUID and the duration; the normalizer
drops items with non-positive duration, so every item handed to the
placement engine has positive duration.  The auto-scheduler sources
(src/auto_scheduler/mrss) are not in the repository snapshot. -/
structure PlayableItem where
  guid : String
  duration : Nat
  deriving DecidableEq, Repr

/-- The idempotency key of a ScheduleEvent (section 4.4): the pair of
channelId and sequence number. -/
def idemKey (e : SEvent) : String × Nat := (e.channelId, e.seq)

/-- Error of the placement engine on an empty item list (section 4.2). -/
inductive PlaceError where
  | emptyFeed
  deriving DecidableEq, Repr

/-- Modelled from the spec: the loop of the Timeline Placement Engine
(sections 4.1 and 4.2).  Items are placed back to back from the cursor,
cycling deterministically through the item list, until the cumulative end
reaches or exceeds the target; sequence numbers are assigned contiguously.
The fuel argument bounds the recursion; the caller passes target - cursor,
which suffices because every normalized item has positive duration. -/
def placeLoop (chan : String) (items : List PlayableItem) :
    Nat → Nat → Nat → Nat → Nat → List SEvent
  | 0, _, _, _, _ => []
  | fuel + 1, idx, seq, cursor, target =>
    if cursor < target then
      match items[idx % items.length]? with
      | some it =>
          { channelId := chan, start := cursor, endTime := cursor + it.duration,
            seq := seq, itemGuid := it.guid } ::
            placeLoop chan items fuel (idx + 1) (seq + 1) (cursor + it.duration) target
      | none => []
    else []

/-- Modelled from the spec: place(channelId, cursorTime, items, targetEndTime)
of section 4.2.  Fails with EmptyFeedError when the item list is empty,
otherwise returns the new events extending the timeline from cursorTime to
at least targetEndTime. -/
def place (chan : String) (seq0 cursor : Nat) (items : List PlayableItem)
    (target : Nat) : Except PlaceError (List SEvent) :=
  if items.isEmpty then Except.error PlaceError.emptyFeed
  else Except.ok (placeLoop chan items (target - cursor) 0 seq0 cursor target)

/-- Modelled from the spec: the cursor re-derivation of section 4.4 — the
last scheduled end is read from the persisted tail, and from now (bootstrap
with an empty store) when nothing is persisted. -/
def tailEnd (now : Nat) (persisted : List SEvent) : Nat :=
  match persisted.getLast? with
  | some e => e.endTime
  | none => now

/-- Modelled from the spec: the next sequence number continues contiguously
from the persisted tail (section 4.2). -/
def nextSeq (persisted : List SEvent) : Nat :=
  match persisted.getLast? with
  | some e => e.seq + 1
  | none => 0

/-- Outcome of one reconciliation pass: the events written in this pass,
the resulting persisted schedule, and the cursor (last scheduled end)
re-derived from the persisted tail. -/
structure PassResult where
  writes : List SEvent
  persisted : List SEvent
  lastScheduledEnd : Nat
  deriving DecidableEq, Repr

/-- Modelled from the spec: one reconciliation pass for one channel
(sections 4.3 and 4.4) over the normalized items.  The target end is
now + horizon; if the cursor derived from the persisted tail already
reaches it, no work is done; an empty feed leaves the schedule untouched
(the channel is Starved); otherwise the placement engine fills the delta
and the writes are appended to the persisted schedule. -/
def reconcilePass (chan : String) (persisted : List SEvent)
    (items : List PlayableItem) (now horizon : Nat) : PassResult :=
  let target := now + horizon
  let c := tailEnd now persisted
  if target ≤ c then
    ⟨[], persisted, c⟩
  else
    match place chan (nextSeq persisted) c items target with
    | Except.error _ => ⟨[], persisted, c⟩
    | Except.ok w => ⟨w, persisted ++ w, tailEnd now (persisted ++ w)⟩

/-- C6: a feed of two items with durations 30 and 45 minutes and a horizon
of two hours places exactly the four events 0-30, 30-75, 75-105 and 105-150
referencing items A, B, A, B in that order, with pairwise distinct
idempotency keys even though the item GUIDs repeat (times in minutes). -/
theorem C6_looping_feed :
    place "ch" 0 0 [⟨"A", 30⟩, ⟨"B", 45⟩] 120 =
      Except.ok [⟨"ch", 0, 30, 0, "A"⟩, ⟨"ch", 30, 75, 1, "B"⟩,
                 ⟨"ch", 75, 105, 2, "A"⟩, ⟨"ch", 105, 150, 3, "B"⟩] ∧
    ([⟨"ch", 0, 30, 0, "A"⟩, ⟨"ch", 30, 75, 1, "B"⟩,
      ⟨"ch", 75, 105, 2, "A"⟩, ⟨"ch", 105, 150, 3, "B"⟩].map idemKey).Nodup ∧
    ¬ (([⟨"ch", 0, 30, 0, "A"⟩, ⟨"ch", 30, 75, 1, "B"⟩,
         ⟨"ch", 75, 105, 2, "A"⟩, ⟨"ch", 105, 150, 3, "B"⟩].map
          SEvent.itemGuid).Nodup) := by
  refine ⟨rfl, by decide, by decide⟩

theorem placeLoop_of_le (chan : String) (items : List PlayableItem)
    (fuel idx seq cursor target : Nat) (h : target ≤ cursor) :
    placeLoop chan items fuel idx seq cursor target = [] := by
  cases fuel with
  | zero => rfl
  | succ f => simp [placeLoop, Nat.not_lt.mpr h]

theorem items_cyclic_get (items : List PlayableItem) (hne : items ≠ [])
    (idx : Nat) :
    ∃ it, items[idx % items.length]? = some it ∧ it ∈ items := by
  have hlen : 0 < items.length := List.length_pos.mpr hne
  have hlt : idx % items.length < items.length := Nat.mod_lt _ hlen
  exact ⟨items[idx % items.length], List.getElem?_eq_getElem hlt,
    List.getElem_mem hlt⟩

theorem placeLoop_head (chan : String) (items : List PlayableItem)
    (fuel idx seq cursor target : Nat) (e : SEvent)
    (h : (placeLoop chan items fuel idx seq cursor target).head? = some e) :
    e.start = cursor := by
  cases fuel with
  | zero => simp [placeLoop] at h
  | succ f =>
    by_cases hct : cursor < target
    · cases hg : items[idx % items.length]? with
      | none => simp [placeLoop, hct, hg] at h
      | some it =>
        simp only [placeLoop, if_pos hct, hg, List.head?_cons,
          Option.some.injEq] at h
        rw [← h]
    · simp [placeLoop, hct] at h

theorem placeLoop_pos (chan : String) (items : List PlayableItem)
    (hpos : ∀ i ∈ items, 0 < i.duration) :
    ∀ fuel idx seq cursor target,
      ∀ e ∈ placeLoop chan items fuel idx seq cursor target,
        e.start < e.endTime := by
  intro fuel
  induction fuel with
  | zero => intro idx seq cursor target e he; simp [placeLoop] at he
  | succ f ih =>
    intro idx seq cursor target e he
    by_cases hct : cursor < target
    · cases hg : items[idx % items.length]? with
      | none => simp [placeLoop, hct, hg] at he
      | some it =>
        simp only [placeLoop, if_pos hct, hg, List.mem_cons] at he
        rcases he with rfl | hmem
        · have hd : 0 < it.duration := by
            have hm := List.getElem?_eq_some.mp hg
            rcases hm with ⟨hlt, hv⟩
            exact hpos it (hv ▸ List.getElem_mem hlt)
          exact Nat.lt_add_of_pos_right hd
        · exact ih _ _ _ _ e hmem
    · simp [placeLoop, hct] at he

theorem placeLoop_chain (chan : String) (items : List PlayableItem) :
    ∀ fuel idx seq cursor target,
      List.Chain' (fun a b => a.endTime = b.start)
        (placeLoop chan items fuel idx seq cursor target) := by
  intro fuel
  induction fuel with
  | zero => intro idx seq cursor target; exact List.chain'_nil
  | succ f ih =>
    intro idx seq cursor target
    by_cases hct : cursor < target
    · cases hg : items[idx % items.length]? with
      | none => simp [placeLoop, hct, hg]
      | some it =>
        simp only [placeLoop, if_pos hct, hg]
        refine List.chain'_cons'.mpr ⟨?_, ih _ _ _ _⟩
        intro y hy
        exact (placeLoop_head chan items f (idx + 1) (seq + 1)
          (cursor + it.duration) target y hy).symm
    · simp [placeLoop, hct]

theorem placeLoop_ne_nil (chan : String) (items : List PlayableItem)
    (fuel idx seq cursor target : Nat) (hne : items ≠ [])
    (hct : cursor < target) (hfuel : target - cursor ≤ fuel) :
    placeLoop chan items fuel idx seq cursor target ≠ [] := by
  cases fuel with
  | zero => omega
  | succ f =>
    rcases items_cyclic_get items hne idx with ⟨it, hg, _⟩
    simp [placeLoop, hct, hg]

theorem placeLoop_lastEnd (chan : String) (items : List PlayableItem)
    (hne : items ≠ []) (hpos : ∀ i ∈ items, 0 < i.duration) :
    ∀ fuel idx seq cursor target, target - cursor ≤ fuel → cursor < target →
      ∀ e, (placeLoop chan items fuel idx seq cursor target).getLast? = some e →
        target ≤ e.endTime := by
  intro fuel
  induction fuel with
  | zero => intro idx seq cursor target hfuel hct e he; omega
  | succ f ih =>
    intro idx seq cursor target hfuel hct e he
    rcases items_cyclic_get items hne idx with ⟨it, hg, hmem⟩
    have hd : 0 < it.duration := hpos it hmem
    simp only [placeLoop, if_pos hct, hg] at he
    cases hrest : placeLoop chan items f (idx + 1) (seq + 1)
        (cursor + it.duration) target with
    | nil =>
      rw [hrest] at he
      simp only [List.getLast?_singleton, Option.some.injEq] at he
      by_cases hct2 : cursor + it.duration < target
      · exact absurd hrest
          (placeLoop_ne_nil chan items f (idx + 1) (seq + 1)
            (cursor + it.duration) target hne hct2 (by omega))
      · rw [← he]
        show target ≤ cursor + it.duration
        omega
    | cons b t =>
      rw [hrest] at he
      rw [List.getLast?_cons_cons] at he
      rw [← hrest] at he
      by_cases hct2 : cursor + it.duration < target
      · exact ih (idx + 1) (seq + 1) (cursor + it.duration) target
          (by omega) hct2 e he
      · rw [placeLoop_of_le chan items f (idx + 1) (seq + 1)
          (cursor + it.duration) target (by omega)] at hrest
        exact absurd hrest (by simp)

theorem placeLoop_cover (chan : String) (items : List PlayableItem)
    (hne : items ≠ []) (hpos : ∀ i ∈ items, 0 < i.duration) :
    ∀ fuel idx seq cursor target, target - cursor ≤ fuel →
      ∀ t, cursor ≤ t → t < target →
        ∃ e ∈ placeLoop chan items fuel idx seq cursor target,
          e.start ≤ t ∧ t < e.endTime := by
  intro fuel
  induction fuel with
  | zero => intro idx seq cursor target hfuel t ht1 ht2; omega
  | succ f ih =>
    intro idx seq cursor target hfuel t ht1 ht2
    have hct : cursor < target := by omega
    rcases items_cyclic_get items hne idx with ⟨it, hg, hmem⟩
    have hd : 0 < it.duration := hpos it hmem
    simp only [placeLoop, if_pos hct, hg]
    by_cases hcov : t < cursor + it.duration
    · exact ⟨_, List.mem_cons_self _ _, ht1, hcov⟩
    · rcases ih (idx + 1) (seq + 1) (cursor + it.duration) target (by omega) t
        (by omega) ht2 with ⟨e, hemem, he1, he2⟩
      exact ⟨e, List.mem_cons_of_mem _ hemem, he1, he2⟩

theorem chain_lower_bound (x : Nat) :
    ∀ (l : List SEvent), List.Chain' (fun a b => a.endTime = b.start) l →
      (∀ e ∈ l, e.start < e.endTime) →
      (∀ y ∈ l.head?, x ≤ y.start) → ∀ b ∈ l, x ≤ b.start := by
  intro l
  induction l with
  | nil => intro _ _ _ b hb; simp at hb
  | cons c t ih =>
    intro hch hpos hhd b hb
    have hch' := List.chain'_cons'.mp hch
    rcases List.mem_cons.mp hb with rfl | hbt
    · exact hhd b (by simp)
    · refine ih hch'.2 (fun e he => hpos e (List.mem_cons_of_mem _ he)) ?_ b hbt
      intro y hy
      have hcy : c.endTime = y.start := hch'.1 y hy
      have hcpos : c.start < c.endTime := hpos c (List.mem_cons_self _ _)
      have hxc : x ≤ c.start := hhd c (by simp)
      omega

theorem pairwise_nonoverlap_of_chain :
    ∀ (l : List SEvent), List.Chain' (fun a b => a.endTime = b.start) l →
      (∀ e ∈ l, e.start < e.endTime) →
      List.Pairwise (fun a b => a.endTime ≤ b.start) l := by
  intro l
  induction l with
  | nil => intro _ _; exact List.Pairwise.nil
  | cons c t ih =>
    intro hch hpos
    have hch' := List.chain'_cons'.mp hch
    refine List.pairwise_cons.mpr
      ⟨?_, ih hch'.2 (fun e he => hpos e (List.mem_cons_of_mem _ he))⟩
    intro b hb
    refine chain_lower_bound c.endTime t hch'.2
      (fun e he => hpos e (List.mem_cons_of_mem _ he)) ?_ b hb
    intro y hy
    exact Nat.le_of_eq (hch'.1 y hy)

theorem pairwise_sorted_of_chain (l : List SEvent)
    (hch : List.Chain' (fun a b => a.endTime = b.start) l)
    (hpos : ∀ e ∈ l, e.start < e.endTime) :
    List.Pairwise (fun a b => a.start < b.start) l := by
  have hp := pairwise_nonoverlap_of_chain l hch hpos
  exact hp.imp_of_mem (fun {a b} ha _ hr => Nat.lt_of_lt_of_le (hpos a ha) hr)

theorem chain_cover :
    ∀ (l : List SEvent), List.Chain' (fun a b => a.endTime = b.start) l →
      ∀ (tm : Nat) (hd la : SEvent), l.head? = some hd → l.getLast? = some la →
        hd.start ≤ tm → tm < la.endTime →
        ∃ e ∈ l, e.start ≤ tm ∧ tm < e.endTime := by
  intro l
  induction l with
  | nil => intro _ tm hd la h1; simp at h1
  | cons a t ih =>
    intro hch tm hd la h1 h2 h3 h4
    simp only [List.head?_cons, Option.some.injEq] at h1
    subst h1
    cases t with
    | nil =>
      simp only [List.getLast?_singleton, Option.some.injEq] at h2
      subst h2
      exact ⟨a, by simp, h3, h4⟩
    | cons b t2 =>
      have hch' := List.chain'_cons'.mp hch
      by_cases hcov : tm < a.endTime
      · exact ⟨a, by simp, h3, hcov⟩
      · have hab : a.endTime = b.start := hch'.1 b (by simp)
        rw [List.getLast?_cons_cons] at h2
        rcases ih hch'.2 tm b la rfl h2 (by omega) h4 with ⟨e, hm, he⟩
        exact ⟨e, List.mem_cons_of_mem _ hm, he⟩

/-- The per-channel schedule invariant of the spec: events totally ordered
by start, contiguous, pairwise non-overlapping, and covering the interval
from lo to hi. -/
def ScheduleInvariant (st : List SEvent) (lo hi : Nat) : Prop :=
  List.Pairwise (fun a b => a.start < b.start) st ∧
  List.Chain' (fun a b => a.endTime = b.start) st ∧
  List.Pairwise (fun a b => a.endTime ≤ b.start) st ∧
  ∀ tm, lo ≤ tm → tm < hi → ∃ e ∈ st, e.start ≤ tm ∧ tm < e.endTime

/-- C5: for a channel with a non-empty normalized feed, after a
reconciliation pass the persisted events are totally ordered by start,
contiguous (each end equals the next start), pairwise non-overlapping, and
cover the interval from now to now + horizon with no gap.  The previously
persisted schedule is assumed contiguous with positive durations and
starting no later than now (it was produced by earlier passes). -/
theorem C5_reconcile_invariant (chan : String) (persisted : List SEvent)
    (items : List PlayableItem) (now horizon : Nat)
    (hne : items ≠ []) (hpos : ∀ i ∈ items, 0 < i.duration)
    (hchain : List.Chain' (fun a b => a.endTime = b.start) persisted)
    (hppos : ∀ e ∈ persisted, e.start < e.endTime)
    (hhead : ∀ e, persisted.head? = some e → e.start ≤ now) :
    ScheduleInvariant
      ((reconcilePass chan persisted items now horizon).persisted)
      now (now + horizon) := by
  by_cases htc : now + horizon ≤ tailEnd now persisted
  · have hres :
        (reconcilePass chan persisted items now horizon).persisted = persisted := by
      simp [reconcilePass, htc]
    rw [hres]
    refine ⟨pairwise_sorted_of_chain persisted hchain hppos, hchain,
      pairwise_nonoverlap_of_chain persisted hchain hppos, ?_⟩
    intro tm h1 h2
    cases hgl : persisted.getLast? with
    | none =>
      have hnil : persisted = [] := List.getLast?_eq_none_iff.mp hgl
      have hc : tailEnd now persisted = now := by simp [tailEnd, hnil]
      omega
    | some la =>
      have hc : tailEnd now persisted = la.endTime := by simp [tailEnd, hgl]
      cases hhd : persisted.head? with
      | none =>
        have hnil : persisted = [] := List.head?_eq_none_iff.mp hhd
        rw [hnil] at hgl
        simp at hgl
      | some hd =>
        exact chain_cover persisted hchain tm hd la hhd hgl
          (Nat.le_trans (hhead hd hhd) h1) (by omega)
  · have hitems : items.isEmpty = false := by simp [List.isEmpty_iff, hne]
    have hct : tailEnd now persisted < now + horizon := by omega
    have hres :
        (reconcilePass chan persisted items now horizon).persisted =
          persisted ++ placeLoop chan items
            (now + horizon - tailEnd now persisted) 0 (nextSeq persisted)
            (tailEnd now persisted) (now + horizon) := by
      simp [reconcilePass, htc, place, hitems]
    rw [hres]
    have hchainAll : List.Chain' (fun a b => a.endTime = b.start)
        (persisted ++ placeLoop chan items
          (now + horizon - tailEnd now persisted) 0 (nextSeq persisted)
          (tailEnd now persisted) (now + horizon)) := by
      refine hchain.append (placeLoop_chain chan items _ _ _ _ _) ?_
      intro x hx y hy
      have hxg : persisted.getLast? = some x := hx
      have hys : y.start = tailEnd now persisted :=
        placeLoop_head chan items _ _ _ _ _ y hy
      have hxe : tailEnd now persisted = x.endTime := by simp [tailEnd, hxg]
      omega
    have hposAll : ∀ e ∈ persisted ++ placeLoop chan items
        (now + horizon - tailEnd now persisted) 0 (nextSeq persisted)
        (tailEnd now persisted) (now + horizon), e.start < e.endTime := by
      intro e he
      rcases List.mem_append.mp he with hp | hw
      · exact hppos e hp
      · exact placeLoop_pos chan items hpos _ _ _ _ _ e hw
    refine ⟨pairwise_sorted_of_chain _ hchainAll hposAll, hchainAll,
      pairwise_nonoverlap_of_chain _ hchainAll hposAll, ?_⟩
    intro tm h1 h2
    by_cases hcv : tm < tailEnd now persisted
    · cases hgl : persisted.getLast? with
      | none =>
        have hnil : persisted = [] := List.getLast?_eq_none_iff.mp hgl
        have hc : tailEnd now persisted = now := by simp [tailEnd, hnil]
        omega
      | some la =>
        have hc : tailEnd now persisted = la.endTime := by simp [tailEnd, hgl]
        cases hhd : persisted.head? with
        | none =>
          have hnil : persisted = [] := List.head?_eq_none_iff.mp hhd
          rw [hnil] at hgl
          simp at hgl
        | some hd =>
          rcases chain_cover persisted hchain tm hd la hhd hgl
            (Nat.le_trans (hhead hd hhd) h1) (by omega) with ⟨e, hm, he⟩
          exact ⟨e, List.mem_append_left _ hm, he⟩
    · rcases placeLoop_cover chan items hne hpos
        (now + horizon - tailEnd now persisted) 0 (nextSeq persisted)
        (tailEnd now persisted) (now + horizon) (Nat.le_refl _) tm
        (by omega) h2 with ⟨e, hm, he⟩
      exact ⟨e, List.mem_append_right _ hm, he⟩

/-- Witness for C5 on a bootstrap pass over an empty store. -/
theorem C5_reconcile_invariant_witness :
    ScheduleInvariant
      ((reconcilePass "c" [] [⟨"A", 30⟩] 0 60).persisted) 0 60 :=
  C5_reconcile_invariant "c" [] [⟨"A", 30⟩] 0 60 (by decide) (by decide)
    List.chain'_nil (by simp) (by simp)

/-- The cheap branch of the Horizon Maintainer: when the cursor derived
from the persisted tail already reaches the target end, a reconciliation
pass writes nothing and changes nothing. -/
theorem reconcilePass_filled (chan : String) (persisted : List SEvent)
    (items : List PlayableItem) (now horizon : Nat)
    (h : now + horizon ≤ tailEnd now persisted) :
    reconcilePass chan persisted items now horizon =
      ⟨[], persisted, tailEnd now persisted⟩ := by
  simp [reconcilePass, h]

/-- C7: reconciliation is idempotent on a filled horizon — immediately
after one reconciliation pass, a second pass at the same instant performs
zero writes and leaves both the persisted schedule and the re-derived
cursor unchanged. -/
theorem C7_idempotent (chan : String) (persisted : List SEvent)
    (items : List PlayableItem) (now horizon : Nat)
    (hpos : ∀ i ∈ items, 0 < i.duration) :
    reconcilePass chan
        (reconcilePass chan persisted items now horizon).persisted
        items now horizon =
      ⟨[], (reconcilePass chan persisted items now horizon).persisted,
          (reconcilePass chan persisted items now horizon).lastScheduledEnd⟩ := by
  by_cases htc : now + horizon ≤ tailEnd now persisted
  · have h1 : reconcilePass chan persisted items now horizon =
        ⟨[], persisted, tailEnd now persisted⟩ :=
      reconcilePass_filled chan persisted items now horizon htc
    rw [h1]
    exact h1
  · cases hitems : items.isEmpty with
    | true =>
      have hnil : items = [] := List.isEmpty_iff.mp hitems
      have h1 : reconcilePass chan persisted items now horizon =
          ⟨[], persisted, tailEnd now persisted⟩ := by
        simp [reconcilePass, htc, place, hnil]
      rw [h1]
      exact h1
    | false =>
      have hne : items ≠ [] := by
        intro h
        rw [h] at hitems
        simp at hitems
      obtain ⟨c, hc⟩ : ∃ c, tailEnd now persisted = c := ⟨_, rfl⟩
      rw [hc] at htc
      have hct : c < now + horizon := by omega
      have h1 : reconcilePass chan persisted items now horizon =
          ⟨placeLoop chan items (now + horizon - c) 0 (nextSeq persisted) c
              (now + horizon),
            persisted ++ placeLoop chan items (now + horizon - c) 0
              (nextSeq persisted) c (now + horizon),
            tailEnd now (persisted ++ placeLoop chan items (now + horizon - c)
              0 (nextSeq persisted) c (now + horizon))⟩ := by
        simp [reconcilePass, hc, htc, place, hitems]
      have hw : placeLoop chan items (now + horizon - c) 0 (nextSeq persisted)
          c (now + horizon) ≠ [] :=
        placeLoop_ne_nil chan items _ _ _ _ _ hne hct (Nat.le_refl _)
      cases hgl : (placeLoop chan items (now + horizon - c) 0
          (nextSeq persisted) c (now + horizon)).getLast? with
      | none => exact absurd (List.getLast?_eq_none_iff.mp hgl) hw
      | some la =>
        have hla : now + horizon ≤ la.endTime :=
          placeLoop_lastEnd chan items hne hpos _ _ _ _ _ (Nat.le_refl _)
            hct la hgl
        have hgal : (persisted ++ placeLoop chan items (now + horizon - c) 0
            (nextSeq persisted) c (now + horizon)).getLast? = some la := by
          rw [List.getLast?_append_of_ne_nil _ hw]
          exact hgl
        have hcond : now + horizon ≤ tailEnd now (persisted ++ placeLoop chan
            items (now + horizon - c) 0 (nextSeq persisted) c
            (now + horizon)) := by
          simp only [tailEnd, hgal]
          exact hla
        rw [h1]
        exact reconcilePass_filled chan _ items now horizon hcond

/-- Witness for C7: a second pass after filling a 25 minute horizon from a
10 minute item writes nothing and changes nothing. -/
theorem C7_idempotent_witness :
    reconcilePass "c" (reconcilePass "c" [] [⟨"A", 10⟩] 0 25).persisted
        [⟨"A", 10⟩] 0 25 =
      ⟨[], (reconcilePass "c" [] [⟨"A", 10⟩] 0 25).persisted,
          (reconcilePass "c" [] [⟨"A", 10⟩] 0 25).lastScheduledEnd⟩ :=
  C7_idempotent "c" [] [⟨"A", 10⟩] 0 25 (by decide)

end ScheduleService
